import Mathlib

/-!
Verification of the log4go logging library (jeanphorn/log4go).

This file gives a shallow embedding of the library's dispatch logic
(`LOGGER`, `Filter.intLogf` in the filter source file), its format-template
engine (`FormatLogRecord`, `changeDttmFormat` in pattlog.go) and its rotating
file sink (`FileLogWriter`, `intRotate` and the consumer loop of
`NewFileLogWriter` in filelog.go), together with theorems settling the
specification's claims about them.

Modelling conventions:
- Go machine integers are modelled as `Int` (counters, thresholds, backup
  numbers); day-of-month values, which always come from `time.Day()`, as `Nat`.
- `time.Time` is modelled by `GoTime`, which carries the components the code
  reads (unix seconds, calendar fields, zone) plus `fmtLayout`, an abstract
  stand-in for Go's `Time.Format` on that instant, and `yyyymmdd`, the
  instant rendered with layout 20060102.
- The process filesystem is modelled by `FS`, an association of file names to
  contents and modification dates, with `badOpen` the set of names on which
  the operating system rejects `os.OpenFile` (models permission errors and
  the like).  `os.Rename` to the empty target name fails, as it does on every
  operating system.
- Go string helpers applied to single-character separators
  (`bytes.Split(b, percent)`, `strings.Split(s, slash)`,
  `strings.Replace(s, newline, backslash-n, -1)`) are given structural
  list-of-character definitions so that every model evaluates inside the
  kernel.
- `fmt.Sprintf` formatting of caller arguments and `runtime.Caller` lookups
  happen before the dispatch logic runs; the already-rendered message and
  source strings are inputs of the embedding.
-/

namespace Log4go

/-- Modelled from the spec: the level enumeration of the repository is
declared in a file that is not part of the provided sources; spec section 3
fixes the order FINEST < FINE < DEBUG < TRACE < INFO < WARNING < ERROR <
CRITICAL, matching the switch in jsonconfig.go `getLogLevel`.  Levels are
consecutive machine integers starting at 0. -/
inductive Level where
  | FINEST
  | FINE
  | DEBUG
  | TRACE
  | INFO
  | WARNING
  | ERROR
  | CRITICAL
deriving DecidableEq

/-- The integer value of a level constant (Go `iota` numbering). -/
def Level.toNat : Level → Nat
  | .FINEST => 0
  | .FINE => 1
  | .DEBUG => 2
  | .TRACE => 3
  | .INFO => 4
  | .WARNING => 5
  | .ERROR => 6
  | .CRITICAL => 7

/-- Modelled from the spec: `levelStrings`, the per-level four-letter display
codes, is declared in a file not among the provided sources; the codes are
documented in pattlog.go's format-code comment and the README's example
output (FNST, FINE, DEBG, TRAC, INFO, WARN, EROR, CRIT). -/
def levelStrings : Level → String
  | .FINEST => "FNST"
  | .FINE => "FINE"
  | .DEBUG => "DEBG"
  | .TRACE => "TRAC"
  | .INFO => "INFO"
  | .WARNING => "WARN"
  | .ERROR => "EROR"
  | .CRITICAL => "CRIT"

/-- Model of a Go `time.Time` instant: the components the embedded code
reads.  `fmtLayout` abstracts `Time.Format` on this instant; `yyyymmdd` is
this instant under layout 20060102 (used by the daily rotation naming). -/
structure GoTime where
  unixSeconds : Int
  year : Nat
  month : Nat
  day : Nat
  hour : Nat
  minute : Nat
  second : Nat
  zone : String
  yyyymmdd : String
  fmtLayout : String → String

/-- The LogRecord value (field order as in the Go struct). -/
structure LogRecord where
  Level : Level
  Created : GoTime
  Source : String
  Message : String
  Category : String

/-- A Filter binds a threshold level, a sink and a category label.  The Go
struct embeds the `LogWrite` sink; here the sink is identified by `sinkId`
so that deliveries to it can be observed. -/
structure Filter where
  Level : Level
  sinkId : Nat
  Category : String
deriving DecidableEq

/-- The registry type (Go `type Logger map[string]*Filter`), modelled as an
association list. -/
def Logger := List (String × Filter)

/-- Map lookup on the registry. -/
def regGet (g : Logger) (c : String) : Option Filter :=
  (List.find? (fun p => p.1 == c) g).map Prod.snd

/-- `LOGGER(category)`: resolve a category to its Filter; an unregistered
category falls back to the "stdout" Filter with category label "DEFAULT".
`none` models the nil-pointer fault when "stdout" itself is unregistered. -/
def LOGGER (g : Logger) (category : String) : Option Filter :=
  match regGet g category with
  | some f => some { f with Category := category }
  | none => (regGet g "stdout").map (fun f => { f with Category := "DEFAULT" })

/-- `Filter.intLogf` (also the shared tail of `intLogc` and `Log`): the level
gate followed by the dispatch decision.  The result is the list of
(sink, record) deliveries performed, in order; `none` models the nil-pointer
fault of reading `Global["stdout"].Level` when "stdout" is unregistered.
The message is the already-Sprintf-rendered string and the source the
already-resolved caller string. -/
def intLogf (g : Logger) (f : Filter) (lvl : Level) (now : GoTime) (src msg : String) :
    Option (List (Nat × LogRecord)) :=
  if lvl.toNat ≥ f.Level.toNat then
    let r : LogRecord :=
      { Level := lvl, Created := now, Source := src, Message := msg, Category := f.Category }
    match regGet g "stdout" with
    | none => none
    | some df =>
      some ((if lvl.toNat > df.Level.toNat then [(df.sinkId, r)] else []) ++
            (if f.Category ≠ "DEFAULT" ∧ f.Category ≠ "stdout" then [(f.sinkId, r)] else []))
  else some []

/-- Number of deliveries in `ws` that went to sink `sid`. -/
def sinkCount (ws : List (Nat × LogRecord)) (sid : Nat) : Nat :=
  (ws.filter (fun p => p.1 == sid)).length

/-- A concrete instant for counterexamples and witnesses. -/
def tDispatch : GoTime :=
  { unixSeconds := 5, year := 2025, month := 10, day := 10, hour := 1, minute := 2,
    second := 3, zone := "UTC", yyyymmdd := "20251010", fmtLayout := fun _ => "" }

/-- Concrete default filter: threshold WARNING, sink 0. -/
def dfC1 : Filter := { Level := .WARNING, sinkId := 0, Category := "DEFAULT" }

/-- Concrete category filter: threshold DEBUG, sink 1, category "app". -/
def fC1 : Filter := { Level := .DEBUG, sinkId := 1, Category := "app" }

/-- Concrete registry for the C1 scenario. -/
def gC1 : Logger := [("stdout", dfC1), ("app", fC1)]

/-! ## String helpers

Structural list-of-character models of the Go standard-library string
operations used by the embedded code, so that everything evaluates in the
kernel. -/

/-- The left curly brace character (written by code point to keep brace
characters out of string literals). -/
def lcurly : Char := Char.ofNat 123

/-- The right curly brace character. -/
def rcurly : Char := Char.ofNat 125

/-- One decimal digit as a character (`0` is code point 48). -/
def decDigit (d : Nat) : Char := Char.ofNat (48 + d)

/-- Decimal rendering worker: emits the digits of `n` in front of `acc`.
The fuel only bounds the digit count; `n + 1` always suffices. -/
def decimalAux : Nat → Nat → List Char → List Char
  | 0, _, acc => acc
  | fuel + 1, n, acc =>
    if n < 10 then decDigit n :: acc
    else decimalAux fuel (n / 10) (decDigit (n % 10) :: acc)

/-- Decimal rendering of a natural number (Go `%d` on a non-negative int). -/
def decimalStr (n : Nat) : String := String.mk (decimalAux (n + 1) n [])

/-- Decimal rendering of a machine integer (Go `%d`). -/
def intStr (i : Int) : String :=
  if i < 0 then "-" ++ decimalStr i.natAbs else decimalStr i.toNat

/-- Read a digit list back as a number starting from the accumulated value
`a` (proof helper for the injectivity of decimal rendering). -/
def digitsValFrom (a : Nat) (l : List Char) : Nat :=
  l.foldl (fun x c => x * 10 + (c.toNat - 48)) a

/-- Go `%02d`: zero-pad to width two. -/
def pad2 (n : Nat) : String := if n < 10 then "0" ++ decimalStr n else decimalStr n

/-- Go `%04d`: zero-pad to width four. -/
def pad4 (n : Nat) : String :=
  if n < 10 then "000" ++ decimalStr n
  else if n < 100 then "00" ++ decimalStr n
  else if n < 1000 then "0" ++ decimalStr n
  else decimalStr n

/-- Splitting on a single separator character: the model of
`bytes.Split(b, sep)` / `strings.Split(s, sep)` for a one-character `sep`.
`cur` accumulates the current piece in reverse. -/
def splitOnCharAux (sep : Char) : List Char → List Char → List String
  | [], cur => [String.mk cur.reverse]
  | c :: rest, cur =>
    if c = sep then String.mk cur.reverse :: splitOnCharAux sep rest []
    else splitOnCharAux sep rest (c :: cur)

/-- Split a string on a single separator character. -/
def splitOnChar (sep : Char) (s : String) : List String := splitOnCharAux sep s.data []

/-- The model of `strings.Replace(s, newline, backslash-n, -1)`: every
newline character becomes a backslash followed by `n`. -/
def replaceNlAux : List Char → List Char
  | [] => []
  | c :: rest =>
    if c = '\n' then '\\' :: 'n' :: replaceNlAux rest else c :: replaceNlAux rest

/-- Newline sanitization of a message string. -/
def sanitizeMessage (s : String) : String := String.mk (replaceNlAux s.data)

/-- Number of newline characters in a string (the number of complete lines a
file whose writes all end in a newline contains). -/
def countNewlines (s : String) : Nat := s.data.count '\n'

/-! ## Format template engine (pattlog.go) -/

/-- The format cache: date and time substrings derived from a record's
creation second (`formatCacheType`). -/
structure FormatCacheType where
  LastUpdateSeconds : Int
  shortTime : String
  shortDate : String
  longTime : String
  longDate : String
deriving DecidableEq

/-- The zero-valued initial cache (`formatCache = &formatCacheType more
precisely its zero value`). -/
def cacheInit : FormatCacheType :=
  { LastUpdateSeconds := 0, shortTime := "", shortDate := "", longTime := "", longDate := "" }

/-- Recomputation of the cache from a record's creation time, exactly the
Sprintf calls of `FormatLogRecord` (note the short date is day/month/year). -/
def updateCache (t : GoTime) : FormatCacheType :=
  { LastUpdateSeconds := t.unixSeconds
    shortTime := pad2 t.hour ++ ":" ++ pad2 t.minute
    shortDate := pad2 t.day ++ "/" ++ pad2 t.month ++ "/" ++ pad2 (t.year % 100)
    longTime := pad2 t.hour ++ ":" ++ pad2 t.minute ++ ":" ++ pad2 t.second ++ " " ++ t.zone
    longDate := pad4 t.year ++ "/" ++ pad2 t.month ++ "/" ++ pad2 t.day }

/-- Scan for the closing brace of a custom datetime directive: returns the
layout body (which contains neither a closing brace nor a newline, matching
the non-greedy dot of the Go regular expression) and the remainder after the
closing brace. -/
def findBody : List Char → Option (List Char × List Char)
  | [] => none
  | c :: rest =>
    if c = rcurly then some ([], rest)
    else if c = '\n' then none
    else (findBody rest).map (fun p => (c :: p.1, p.2))

/-- The full matched span of a custom datetime directive: percent, D, open
brace, body, close brace. -/
def dttmMatch (body : List Char) : List Char :=
  '%' :: 'D' :: lcurly :: (body ++ [rcurly])

/-- Strip every `%D` pair (the model of `strings.Replace(str, percent-D, "",
-1)` acting left to right without overlap). -/
def stripPercentD : List Char → List Char
  | [] => []
  | '%' :: 'D' :: rest => stripPercentD rest
  | c :: rest => c :: stripPercentD rest

/-- Extract the layout from a matched span: drop every `%D`, every opening
brace and every closing brace, as `changeDttmFormat` does. -/
def stripDttm (l : List Char) : String :=
  String.mk (((stripPercentD l).filter (fun c => c != lcurly)).filter (fun c => c != rcurly))

/-- The scan of `changeDttmFormat`: replace the first two custom datetime
directives (a span percent-D-brace-layout-brace, the regular expression
percent D braces with a non-greedy body) by the record's creation time
formatted with the embedded layout; later matches are kept verbatim.  `i`
counts the replacements made; the fuel is consumed one unit per step and the
caller passes the pattern length, which the scan never exceeds. -/
def changeDttmAux (fl : String → String) : Nat → Nat → List Char → List Char
  | 0, _, l => l
  | _ + 1, _, [] => []
  | fuel + 1, i, '%' :: 'D' :: c :: rest =>
    if c = lcurly then
      match findBody rest with
      | some (body, rest') =>
        if i < 2 then
          (fl (stripDttm (dttmMatch body))).data ++ changeDttmAux fl fuel (i + 1) rest'
        else
          '%' :: 'D' :: c :: (body ++ rcurly :: changeDttmAux fl fuel i rest')
      | none => '%' :: 'D' :: c :: changeDttmAux fl fuel i rest
    else '%' :: changeDttmAux fl fuel i ('D' :: c :: rest)
  | fuel + 1, i, c :: rest => c :: changeDttmAux fl fuel i rest

/-- `changeDttmFormat(format, rec)`: the custom datetime preprocessing pass.
`fl` stands for `rec.Created.Format`. -/
def changeDttmFormat (fl : String → String) (format : String) : String :=
  String.mk (changeDttmAux fl format.data.length 0 format.data)

/-- One format directive: the switch on the first character of a piece.
Returns the substitution text and the (possibly category-patched) record;
unknown selector characters contribute nothing. -/
def applyDirective (cache : FormatCacheType) (r : LogRecord) (c : Char) : String × LogRecord :=
  match c with
  | 'T' => (cache.longTime, r)
  | 't' => (cache.shortTime, r)
  | 'D' => (cache.longDate, r)
  | 'd' => (cache.shortDate, r)
  | 'L' => (levelStrings r.Level, r)
  | 'S' => (r.Source, r)
  | 's' => ((splitOnChar '/' r.Source).getLastD "", r)
  | 'M' => (r.Message, r)
  | 'C' =>
    if r.Category.length = 0 then ("DEFAULT", { r with Category := "DEFAULT" })
    else (r.Category, r)
  | _ => ("", r)

/-- Render the pieces of index greater than zero: each piece's first
character selects a substitution and the remainder of the piece is literal
text; empty pieces contribute nothing. -/
def renderRest (cache : FormatCacheType) : LogRecord → List String → String × LogRecord
  | r, [] => ("", r)
  | r, piece :: rest =>
    match piece.data with
    | [] => renderRest cache r rest
    | c :: cs =>
      let sr := applyDirective cache r c
      let orr := renderRest cache sr.2 rest
      (sr.1 ++ String.mk cs ++ orr.1, orr.2)

/-- `FormatLogRecord(format, rec)` from pattlog.go.  The global format cache
is threaded explicitly: the result carries the rendered string, the cache
after the call and the record after the call (the record is mutated through
its pointer when an empty category is rendered).  A `none` record returns
the literal string `<nil>`. -/
def FormatLogRecord (cacheIn : FormatCacheType) (format : String) :
    Option LogRecord → String × FormatCacheType × Option LogRecord
  | none => ("<nil>", cacheIn, none)
  | some r =>
    if format.length = 0 then ("", cacheIn, some r)
    else
      let secs := r.Created.unixSeconds
      let cache := if cacheIn.LastUpdateSeconds ≠ secs then updateCache r.Created else cacheIn
      let formatByte := changeDttmFormat r.Created.fmtLayout format
      let pieces := splitOnChar '%' formatByte
      match pieces with
      | [] => ("\n", cache, some r)
      | first :: rest =>
        let orr := renderRest cache r rest
        (first ++ orr.1 ++ "\n", cache, some orr.2)

/-- The rendering function a sink uses, with a fixed incoming cache: only the
rendered string. -/
def renderWith (cache : FormatCacheType) (fmtStr : String) (r : LogRecord) : String :=
  (FormatLogRecord cache fmtStr (some r)).1

/-- The known directive selectors of pattlog.go's `FormatLogRecord`. -/
def knownSelectors : List Char := ['T', 't', 'D', 'd', 'L', 'S', 's', 'M', 'C']

/-- A concrete record with message "hello" for the C8 scenario. -/
def recHello : LogRecord :=
  { Level := .INFO, Created := tDispatch, Source := "src", Message := "hello",
    Category := "cat" }

/-- A concrete record with empty category for the C9 scenario. -/
def recNoCat : LogRecord :=
  { Level := .INFO, Created := tDispatch, Source := "src", Message := "hello",
    Category := "" }

/-! ## Filesystem model -/

/-- A file on disk: its content and the day-of-month and 20060102 rendering
of its modification time (what `os.Stat(...).ModTime()` gives the rotation
code). -/
structure FSFile where
  content : String
  modDay : Nat
  modDate : String
deriving DecidableEq

/-- The filesystem: an association of names to files, plus the set of names
on which the operating system rejects `os.OpenFile` (models permission
errors and similar environmental failures). -/
structure FS where
  entries : List (String × FSFile)
  badOpen : List String
deriving DecidableEq

/-- Look a file up by name. -/
def fsGet (fs : FS) (name : String) : Option FSFile :=
  (List.find? (fun p => p.1 == name) fs.entries).map Prod.snd

/-- Bind `name` to `f` (create or overwrite). -/
def fsSet (fs : FS) (name : String) (f : FSFile) : FS :=
  { fs with entries := (name, f) :: fs.entries }

/-- Remove a name. -/
def fsRemove (fs : FS) (name : String) : FS :=
  { fs with entries := fs.entries.filter (fun p => !(p.1 == name)) }

/-- Existence check (`os.Stat` / `os.Lstat` succeeding). -/
def fsExists (fs : FS) (name : String) : Bool := (fsGet fs name).isSome

/-- `os.Rename(src, dst)`: fails when the source does not exist or the
target name is empty (which every operating system rejects); otherwise the
file moves wholesale, keeping its modification time, and clobbers any
previous `dst`. -/
def fsRename (fs : FS) (src dst : String) : Except String FS :=
  if dst = "" then .error "rename failed"
  else
    match fsGet fs src with
    | none => .error "rename failed"
    | some f => .ok (fsSet (fsRemove fs src) dst f)

/-- A successful write of `s` through an open handle on `name`: appends to
the content and refreshes the modification time.  Writing the empty string
transfers no data and is a no-op (also on the modification time). -/
def fsAppend (fs : FS) (name : String) (s : String) (now : GoTime) : FS :=
  if s = "" then fs
  else
    match fsGet fs name with
    | none => fs
    | some f =>
      fsSet fs name
        { content := f.content ++ s, modDay := now.day, modDate := now.yyyymmdd }

/-- `os.OpenFile(name, O_WRONLY|O_APPEND|O_CREATE, 0660)`: fails on the
environmentally bad names, otherwise opens the existing file for append or
creates an empty one. -/
def fsOpenAppend (fs : FS) (name : String) (now : GoTime) : Except String FS :=
  if name ∈ fs.badOpen then .error "open failed"
  else if fsExists fs name then .ok fs
  else .ok (fsSet fs name { content := "", modDay := now.day, modDate := now.yyyymmdd })

/-! ## File sink (filelog.go) -/

/-- The `FileLogWriter` state (field order as in the Go struct; the channels
are replaced by the event list the consumer loop processes).  `fileOpen`
models whether `w.file` is a handle writes succeed on (`nil`/closed handles
accept no data). -/
structure FileLogWriter where
  filename : String
  format : String
  header : String
  trailer : String
  maxlines : Int
  maxlines_curlines : Int
  maxsize : Int
  maxsize_cursize : Int
  daily : Bool
  daily_opendate : Nat
  rotate : Bool
  maxbackup : Int
  currbackup : Int
  sanitize : Bool
  fileOpen : Bool
deriving DecidableEq

/-- The record `&LogRecord{Created: now}` used for header and trailer
writes (all other fields are Go zero values). -/
def emptyRec (now : GoTime) : LogRecord :=
  { Level := .FINEST, Created := now, Source := "", Message := "", Category := "" }

/-- The backup name `filename.N`. -/
def mkB (filename : String) (n : Nat) : String := filename ++ "." ++ decimalStr n

/-- The non-daily shift loop of `intRotate`: for `num` from `maxbackup - 1`
down to 1, rename `filename.num` to `filename.num+1` when it exists (rename
errors are discarded, as in the code).  Returns the filesystem and the last
value of the loop variable `fname` (the initial empty string when the loop
body never runs, i.e. when `maxbackup <= 1`). -/
def shiftBackups (filename : String) : Nat → FS → String → FS × String
  | 0, fs, fname => (fs, fname)
  | n + 1, fs, _ =>
    let fname := mkB filename (n + 1)
    let nfname := mkB filename (n + 2)
    let fs' := if fsExists fs fname then
                 match fsRename fs fname nfname with
                 | .ok fs2 => fs2
                 | .error _ => fs
               else fs
    shiftBackups filename n fs' fname

/-- `intRotate`: write the trailer and close any open file; if rotating and
the live file exists, rename it per the active naming policy (daily-dated
with the file's modification date, or the count chain); then reopen the live
path, write the header and reset the counters.  Errors carry the message
printed to the error stream together with the writer and filesystem state at
the failure (the Go method mutates its receiver in place before failing). -/
def intRotate (render : String → LogRecord → String) (w : FileLogWriter) (fs : FS)
    (now : GoTime) : Except (String × FileLogWriter × FS) (FileLogWriter × FS) :=
  let fs0 := if w.fileOpen then fsAppend fs w.filename (render w.trailer (emptyRec now)) now
             else fs
  let w0 := { w with fileOpen := false }
  let step : Except (String × FileLogWriter × FS) (FileLogWriter × FS) :=
    if w0.rotate then
      match fsGet fs0 w0.filename with
      | none => .ok (w0, fs0)
      | some info =>
        let w1 := { w0 with daily_opendate := info.modDay }
        if w1.daily then
          let modifieddate := info.modDate
          if now.day ≠ w1.daily_opendate then
            let fname := w1.filename ++ "." ++ modifieddate ++ ".0"
            let w2 := { w1 with currbackup := 1 }
            match fsRename fs0 w2.filename fname with
            | .error e => .error ("Rotate: " ++ e ++ "\n", w2, fs0)
            | .ok fs1 => .ok (w2, fs1)
          else
            let fname := w1.filename ++ "." ++ modifieddate ++ "." ++ intStr w1.currbackup
            let cb := w1.currbackup + 1
            let w2 := { w1 with currbackup := if cb ≥ w1.maxbackup then 1 else cb }
            match fsRename fs0 w2.filename fname with
            | .error e => .error ("Rotate: " ++ e ++ "\n", w2, fs0)
            | .ok fs1 => .ok (w2, fs1)
        else
          let sh := shiftBackups w1.filename (w1.maxbackup - 1).toNat fs0 ""
          match fsRename sh.1 w1.filename sh.2 with
          | .error e => .error ("Rotate: " ++ e ++ "\n", w1, sh.1)
          | .ok fs1 => .ok (w1, fs1)
    else .ok (w0, fs0)
  match step with
  | .error x => .error x
  | .ok (w1, fs1) =>
    match fsOpenAppend fs1 w1.filename now with
    | .error e => .error (e, w1, fs1)
    | .ok fs2 =>
      let w2 := { w1 with fileOpen := true }
      let fs3 := fsAppend fs2 w2.filename (render w2.header (emptyRec now)) now
      .ok ({ w2 with
              daily_opendate := now.day
              maxlines_curlines := 0
              maxsize_cursize := 0 }, fs3)

/-- The rotation trigger checked before each record is written: line count
threshold first, then byte size threshold, then the daily boundary. -/
def rotateTrigger (w : FileLogWriter) (nowDay : Nat) : Bool :=
  (decide (w.maxlines > 0) && decide (w.maxlines_curlines ≥ w.maxlines)) ||
  (decide (w.maxsize > 0) && decide (w.maxsize_cursize ≥ w.maxsize)) ||
  (w.daily && decide (nowDay ≠ w.daily_opendate))

/-- The write phase of the consumer loop for one record: optional newline
sanitization of the message, render, write, then counter update from the
write (the byte count is the length of the written string). -/
def writeRecord (render : String → LogRecord → String) (w : FileLogWriter) (fs : FS)
    (r : LogRecord) (now : GoTime) :
    Except (String × FileLogWriter × FS) (FileLogWriter × FS) :=
  let r1 := if w.sanitize then { r with Message := sanitizeMessage r.Message } else r
  let line := render w.format r1
  let fs1 := fsAppend fs w.filename line now
  .ok ({ w with
          maxlines_curlines := w.maxlines_curlines + 1
          maxsize_cursize := w.maxsize_cursize + (line.utf8ByteSize : Int) }, fs1)

/-- An event the consumer loop can receive: an out-of-band rotate signal or
a record to write, each carrying the wall-clock instant at which it is
handled. -/
inductive SinkEvent where
  | rot (now : GoTime)
  | recEv (r : LogRecord) (now : GoTime)

/-- One iteration of the consumer loop's select: a rotate signal runs
`intRotate`; a record first runs `intRotate` when the trigger fires, then
writes the record. -/
def handleEvent (render : String → LogRecord → String) (w : FileLogWriter) (fs : FS) :
    SinkEvent → Except (String × FileLogWriter × FS) (FileLogWriter × FS)
  | .rot now => intRotate render w fs now
  | .recEv r now =>
    match (if rotateTrigger w now.day then intRotate render w fs now else .ok (w, fs)) with
    | .error x => .error x
    | .ok (w1, fs1) => writeRecord render w1 fs1 r now

/-- Process a list of events, stopping at the first error. -/
def runEvents (render : String → LogRecord → String) (w : FileLogWriter) (fs : FS) :
    List SinkEvent → Except (String × FileLogWriter × FS) (FileLogWriter × FS)
  | [] => .ok (w, fs)
  | ev :: rest =>
    match handleEvent render w fs ev with
    | .ok (w1, fs1) => runEvents render w1 fs1 rest
    | .error x => .error x

/-- The deferred cleanup of the consumer goroutine: when the handle is still
open, the trailer is written and the file closed (writes on a closed or nil
handle transfer nothing). -/
def finalize (render : String → LogRecord → String) (endTime : GoTime)
    (w : FileLogWriter) (fs : FS) : FS :=
  if w.fileOpen then fsAppend fs w.filename (render w.trailer (emptyRec endTime)) endTime
  else fs

/-- The outcome of the consumer loop: final writer and filesystem state, the
error reported to the process error stream (if any), and the events left
unread on the queue when the loop returned early. -/
structure LoopResult where
  w : FileLogWriter
  fs : FS
  reported : Option String
  unread : List SinkEvent

/-- The consumer loop of `NewFileLogWriter`: handle events until the record
channel closes (end of the list) or a filesystem error stops the loop; in
either case the deferred cleanup runs.  Events after an error stay unread. -/
def runLoop (render : String → LogRecord → String) (endTime : GoTime)
    (w : FileLogWriter) (fs : FS) : List SinkEvent → LoopResult
  | [] => ⟨{ w with fileOpen := false }, finalize render endTime w fs, none, []⟩
  | ev :: rest =>
    match handleEvent render w fs ev with
    | .ok (w1, fs1) => runLoop render endTime w1 fs1 rest
    | .error (e, w1, fs1) =>
      ⟨{ w1 with fileOpen := false }, finalize render endTime w1 fs1, some e, rest⟩

/-! ## Concrete fixtures for the file-sink scenarios -/

/-- A concrete instant with the given unix second, day of month and
20060102 date. -/
def mkTime (secs : Int) (day : Nat) (ymd : String) : GoTime :=
  { unixSeconds := secs, year := 2025, month := 10, day := day, hour := 1, minute := 2,
    second := 3, zone := "UTC", yyyymmdd := ymd, fmtLayout := fun _ => "" }

/-- Instant for the line-count rotation scenario. -/
def t5 : GoTime := mkTime 100 1 "20251001"

/-- A record carrying the given message. -/
def mkMsgRec (msg : String) : LogRecord :=
  { Level := .INFO, Created := t5, Source := "src", Message := msg, Category := "cat" }

/-- Sink for the line-count scenario: maxlines 2, rotation with backups on,
message-only format, no header or trailer. -/
def w5 : FileLogWriter :=
  { filename := "test.log", format := "%M", header := "", trailer := "", maxlines := 2,
    maxlines_curlines := 0, maxsize := 0, maxsize_cursize := 0, daily := false,
    daily_opendate := 1, rotate := true, maxbackup := 3, currbackup := 1,
    sanitize := false, fileOpen := true }

/-- Freshly opened live file for the line-count scenario. -/
def fs5 : FS :=
  { entries := [("test.log", { content := "", modDay := 1, modDate := "20251001" })],
    badOpen := [] }

/-- Three records delivered to the sink on the same day. -/
def evs5 : List SinkEvent :=
  [.recEv (mkMsgRec "m1") t5, .recEv (mkMsgRec "m2") t5, .recEv (mkMsgRec "m3") t5]

/-- Instant on day 11 for the daily rollover scenario. -/
def t3c : GoTime := mkTime 200 11 "20251011"

/-- Daily-rotating sink whose live file was last modified on day 10. -/
def w3c : FileLogWriter :=
  { filename := "app.log", format := "%M", header := "", trailer := "", maxlines := 0,
    maxlines_curlines := 0, maxsize := 0, maxsize_cursize := 0, daily := true,
    daily_opendate := 10, rotate := true, maxbackup := 99, currbackup := 3,
    sanitize := false, fileOpen := true }

/-- Live file modified on 2025-10-10 for the daily rollover scenario. -/
def fs3c : FS :=
  { entries := [("app.log", { content := "x\n", modDay := 10, modDate := "20251010" })],
    badOpen := [] }

/-- Instant for the count-rotation edge scenario. -/
def t4c : GoTime := mkTime 300 7 "20251009"

/-- Count-rotating sink with maxbackup 1 (reachable through
`SetRotateMaxBackup`). -/
def w4c : FileLogWriter :=
  { filename := "b.log", format := "%M", header := "", trailer := "", maxlines := 0,
    maxlines_curlines := 0, maxsize := 0, maxsize_cursize := 0, daily := false,
    daily_opendate := 7, rotate := true, maxbackup := 1, currbackup := 1,
    sanitize := false, fileOpen := false }

/-- Existing live file for the count-rotation edge scenario. -/
def fs4c : FS :=
  { entries := [("b.log", { content := "x\n", modDay := 7, modDate := "20251009" })],
    badOpen := [] }

/-- Instant for the count-rotation witness scenario. -/
def t4w : GoTime := mkTime 600 8 "20251008"

/-- Count-rotating sink with maxbackup 3 for the shift-chain witness. -/
def w4w : FileLogWriter :=
  { filename := "d.log", format := "%M", header := "", trailer := "", maxlines := 0,
    maxlines_curlines := 0, maxsize := 0, maxsize_cursize := 0, daily := false,
    daily_opendate := 8, rotate := true, maxbackup := 3, currbackup := 1,
    sanitize := false, fileOpen := false }

/-- Live file plus one existing backup for the shift-chain witness. -/
def fs4w : FS :=
  { entries := [("d.log", { content := "live\n", modDay := 8, modDate := "20251008" }),
                ("d.log.1", { content := "old1\n", modDay := 7, modDate := "20251007" })],
    badOpen := [] }

/-- Instant for the sanitize scenario. -/
def t7 : GoTime := mkTime 400 2 "20251002"

/-- Sanitizing sink, no rotation triggers. -/
def w7 : FileLogWriter :=
  { filename := "s.log", format := "%M", header := "", trailer := "", maxlines := 0,
    maxlines_curlines := 0, maxsize := 0, maxsize_cursize := 0, daily := false,
    daily_opendate := 2, rotate := false, maxbackup := 99, currbackup := 1,
    sanitize := true, fileOpen := true }

/-- Freshly opened live file for the sanitize scenario. -/
def fs7 : FS :=
  { entries := [("s.log", { content := "", modDay := 2, modDate := "20251002" })],
    badOpen := [] }

/-- A record whose message contains a newline. -/
def rec7 : LogRecord :=
  { Level := .INFO, Created := t7, Source := "src", Message := "a\nb", Category := "cat" }

/-- Instant for the fail-stop scenario. -/
def t6 : GoTime := mkTime 500 5 "20251005"

/-- Sink whose next rotation fails (maxbackup 1 makes the live rename target
the empty name). -/
def w6 : FileLogWriter :=
  { filename := "c.log", format := "%M", header := "", trailer := "", maxlines := 0,
    maxlines_curlines := 0, maxsize := 0, maxsize_cursize := 0, daily := false,
    daily_opendate := 5, rotate := true, maxbackup := 1, currbackup := 1,
    sanitize := false, fileOpen := false }

/-- Existing live file for the fail-stop scenario. -/
def fs6 : FS :=
  { entries := [("c.log", { content := "y\n", modDay := 5, modDate := "20251005" })],
    badOpen := [] }

/-- A record delivered after the failing rotation. -/
def rec6 : LogRecord :=
  { Level := .INFO, Created := t6, Source := "src", Message := "after", Category := "cat" }

/-! ## Theorems on the dispatch logic -/

/-- C2: for every leveled call that passes the resolved Filter's threshold,
the dispatch writes the record to the default "stdout" sink iff the record's
level is strictly greater than the default sink's threshold, and additionally
to the Filter's own sink iff its category is neither "DEFAULT" nor "stdout";
each delivery happens exactly once, as the explicit delivery list shows. -/
theorem c2_dispatch (g : Logger) (f : Filter) (lvl : Level) (now : GoTime) (src msg : String)
    (df : Filter) (hdf : regGet g "stdout" = some df)
    (hpass : f.Level.toNat ≤ lvl.toNat) :
    ∃ ws, intLogf g f lvl now src msg = some ws ∧
      ws = (if df.Level.toNat < lvl.toNat
              then [(df.sinkId, ⟨lvl, now, src, msg, f.Category⟩)] else []) ++
           (if f.Category ≠ "DEFAULT" ∧ f.Category ≠ "stdout"
              then [(f.sinkId, ⟨lvl, now, src, msg, f.Category⟩)] else []) ∧
      (f.sinkId ≠ df.sinkId →
        ((∃ r, (df.sinkId, r) ∈ ws) ↔ df.Level.toNat < lvl.toNat) ∧
        ((∃ r, (f.sinkId, r) ∈ ws) ↔ (f.Category ≠ "DEFAULT" ∧ f.Category ≠ "stdout"))) := by
  refine ⟨_, ?_, rfl, fun hne => ?_⟩
  · simp only [intLogf, ge_iff_le, if_pos hpass, hdf]
  · constructor
    · by_cases hA : df.Level.toNat < lvl.toNat <;>
        by_cases hB : f.Category ≠ "DEFAULT" ∧ f.Category ≠ "stdout" <;>
          simp [hA, hB, hne, Ne.symm hne, Prod.ext_iff]
    · by_cases hA : df.Level.toNat < lvl.toNat <;>
        by_cases hB : f.Category ≠ "DEFAULT" ∧ f.Category ≠ "stdout" <;>
          simp [hA, hB, hne, Ne.symm hne, Prod.ext_iff]

/-- C2 witness: the dispatch description instantiated at a concrete registry,
filter and call. -/
theorem c2_dispatch_witness :
    ∃ ws, intLogf gC1 fC1 .INFO tDispatch "s" "m" = some ws ∧
      ws = (if dfC1.Level.toNat < Level.INFO.toNat
              then [(dfC1.sinkId, ⟨.INFO, tDispatch, "s", "m", fC1.Category⟩)] else []) ++
           (if fC1.Category ≠ "DEFAULT" ∧ fC1.Category ≠ "stdout"
              then [(fC1.sinkId, ⟨.INFO, tDispatch, "s", "m", fC1.Category⟩)] else []) ∧
      (fC1.sinkId ≠ dfC1.sinkId →
        ((∃ r, (dfC1.sinkId, r) ∈ ws) ↔ dfC1.Level.toNat < Level.INFO.toNat) ∧
        ((∃ r, (fC1.sinkId, r) ∈ ws) ↔
          (fC1.Category ≠ "DEFAULT" ∧ fC1.Category ≠ "stdout"))) :=
  c2_dispatch gC1 fC1 .INFO tDispatch "s" "m" dfC1 rfl (by decide)

/-- C1 counterexample: with the registered category's threshold DEBUG and the
default sink's threshold WARNING, a record logged at INFO is delivered only
to the category's own sink (sink 1); the default sink (sink 0) receives
nothing, because INFO is not strictly greater than WARNING.  The claim that
both sinks receive it once is therefore false. -/
theorem c1_counterexample :
    LOGGER gC1 "app" = some fC1 ∧
    (intLogf gC1 fC1 .INFO tDispatch "src" "msg").map (fun ws => sinkCount ws dfC1.sinkId)
      = some 0 ∧
    (intLogf gC1 fC1 .INFO tDispatch "src" "msg").map (fun ws => sinkCount ws fC1.sinkId)
      = some 1 :=
  ⟨rfl, rfl, rfl⟩

/-- C1 amended: for a registry where the category's own Filter has threshold
DEBUG and the default "stdout" sink's threshold is WARNING, a record logged
to that category at INFO is written exactly once to the category's own sink
and is not written to the default sink (INFO is not strictly greater than
WARNING, and the default sink only receives records whose level strictly
exceeds its threshold). -/
theorem c1_amended (g : Logger) (f df : Filter) (now : GoTime) (src msg : String)
    (hdf : regGet g "stdout" = some df)
    (hdfL : df.Level = .WARNING) (hfL : f.Level = .DEBUG)
    (hc1 : f.Category ≠ "DEFAULT") (hc2 : f.Category ≠ "stdout") :
    intLogf g f .INFO now src msg =
      some [(f.sinkId, ⟨.INFO, now, src, msg, f.Category⟩)] ∧
    (f.sinkId ≠ df.sinkId →
      (intLogf g f .INFO now src msg).map (fun ws => sinkCount ws df.sinkId) = some 0) := by
  have h1 : intLogf g f .INFO now src msg =
      some [(f.sinkId, ⟨.INFO, now, src, msg, f.Category⟩)] := by
    simp only [intLogf, ge_iff_le, hdf, hfL, hdfL]
    norm_num [Level.toNat, hc1, hc2]
  refine ⟨h1, fun hne => ?_⟩
  rw [h1]
  simp [sinkCount, hne]

/-- C1 amended witness: the amended statement at the concrete C1 registry. -/
theorem c1_amended_witness :
    intLogf gC1 fC1 .INFO tDispatch "src" "msg" =
      some [(fC1.sinkId, ⟨.INFO, tDispatch, "src", "msg", fC1.Category⟩)] ∧
    (fC1.sinkId ≠ dfC1.sinkId →
      (intLogf gC1 fC1 .INFO tDispatch "src" "msg").map (fun ws => sinkCount ws dfC1.sinkId)
        = some 0) :=
  c1_amended gC1 fC1 dfC1 tDispatch "src" "msg" rfl rfl rfl (by decide) (by decide)

/-- C10: a record that passes the resolved Filter's threshold but whose level
is not strictly greater than the default sink's threshold, and whose Filter
carries category "DEFAULT" or "stdout", is delivered to no sink at all.  In
particular a record logged through the default filter at a level exactly
equal to that filter's threshold is silently dropped despite passing the
level gate. -/
theorem c10_silent_drop :
    (∀ (g : Logger) (f df : Filter) (lvl : Level) (now : GoTime) (src msg : String),
      regGet g "stdout" = some df →
      f.Level.toNat ≤ lvl.toNat →
      lvl.toNat ≤ df.Level.toNat →
      (f.Category = "DEFAULT" ∨ f.Category = "stdout") →
      intLogf g f lvl now src msg = some []) ∧
    (∀ (g : Logger) (df : Filter) (c : String) (now : GoTime) (src msg : String),
      regGet g "stdout" = some df → regGet g c = none →
      LOGGER g c = some { df with Category := "DEFAULT" } ∧
      intLogf g { df with Category := "DEFAULT" } df.Level now src msg = some []) := by
  constructor
  · intro g f df lvl now src msg hdf hpass hle hcat
    simp only [intLogf, ge_iff_le, if_pos hpass, hdf]
    have hnotgt : ¬ df.Level.toNat < lvl.toNat := not_lt.mpr hle
    rcases hcat with h | h <;> simp [hnotgt, h]
  · intro g df c now src msg hdf hc
    refine ⟨by simp [LOGGER, hc, hdf], ?_⟩
    simp [intLogf, hdf]

/-- C10 witness: a record logged through the default filter at exactly the
default threshold (WARNING) is dropped. -/
theorem c10_silent_drop_witness :
    intLogf gC1 dfC1 .WARNING tDispatch "s" "m" = some [] :=
  c10_silent_drop.1 gC1 dfC1 dfC1 .WARNING tDispatch "s" "m" rfl (by decide) (by decide)
    (Or.inl rfl)

/-! ## Theorems on the format template engine -/

/-- A string of length zero is the empty string. -/
theorem string_eq_empty_of_length_zero {s : String} (h : s.length = 0) : s = "" := by
  cases s with
  | mk data =>
    cases data with
    | nil => rfl
    | cons c cs => simp [String.length] at h

/-- A directive with an unknown selector character contributes no
substitution and leaves the record untouched. -/
theorem applyDirective_unknown (cache : FormatCacheType) (r : LogRecord) (c : Char)
    (h : c ∉ knownSelectors) : applyDirective cache r c = ("", r) := by
  unfold applyDirective
  split <;> first
    | rfl
    | simp [knownSelectors] at h

/-- A directive whose selector is not `C` leaves the record untouched. -/
theorem applyDirective_ne_C (cache : FormatCacheType) (r : LogRecord) (c : Char)
    (h : c ≠ 'C') : (applyDirective cache r c).2 = r := by
  unfold applyDirective
  split <;> first
    | rfl
    | exact absurd rfl h

/-- A directive applied to a record with a nonempty category leaves the
category unchanged. -/
theorem applyDirective_category_ne (cache : FormatCacheType) (r : LogRecord) (c : Char)
    (h : r.Category ≠ "") : (applyDirective cache r c).2 = r := by
  unfold applyDirective
  split <;> try rfl
  have hlen : ¬ r.Category.length = 0 := fun h0 => h (string_eq_empty_of_length_zero h0)
  rw [if_neg hlen]

/-- Rendering pieces never changes a nonempty category. -/
theorem renderRest_category_ne (cache : FormatCacheType) (pieces : List String) :
    ∀ (r : LogRecord), r.Category ≠ "" →
      ((renderRest cache r pieces).2).Category = r.Category := by
  induction pieces with
  | nil => intro r _; rfl
  | cons p rest ih =>
    intro r h
    cases hp : p.data with
    | nil =>
      simp only [renderRest, hp]
      exact ih r h
    | cons c cs =>
      simp only [renderRest, hp]
      have h2 : (applyDirective cache r c).2 = r := applyDirective_category_ne cache r c h
      rw [h2]
      exact ih r h

/-- If some piece carries the `C` selector and the record's category is
empty, rendering patches the category to DEFAULT. -/
theorem renderRest_category_default (cache : FormatCacheType) (pieces : List String) :
    ∀ (r : LogRecord), r.Category = "" → (∃ p ∈ pieces, p.data.head? = some 'C') →
      ((renderRest cache r pieces).2).Category = "DEFAULT" := by
  induction pieces with
  | nil =>
    rintro r _ ⟨p, hp, _⟩
    exact absurd hp (List.not_mem_nil p)
  | cons p rest ih =>
    rintro r hc ⟨q, hq, hqC⟩
    cases hp : p.data with
    | nil =>
      simp only [renderRest, hp]
      refine ih r hc ⟨q, ?_, hqC⟩
      rcases List.mem_cons.mp hq with rfl | hmem
      · rw [hp] at hqC
        simp at hqC
      · exact hmem
    | cons c cs =>
      simp only [renderRest, hp]
      by_cases hcC : c = 'C'
      · subst hcC
        have h1 : (applyDirective cache r 'C').2 = { r with Category := "DEFAULT" } := by
          simp [applyDirective, hc]
        rw [h1]
        have h2 := renderRest_category_ne cache rest { r with Category := "DEFAULT" }
          (by simp)
        rw [h2]
      · have h1 : (applyDirective cache r c).2 = r := applyDirective_ne_C cache r c hcC
        rw [h1]
        refine ih r hc ⟨q, ?_, hqC⟩
        rcases List.mem_cons.mp hq with rfl | hmem
        · rw [hp] at hqC
          simp at hqC
          exact absurd hqC hcC
        · exact hmem

/-- C8: an unknown directive selector contributes no substitution while the
literal text after it in the segment is still emitted and the record is left
alone; every render of a nonempty pattern appends exactly one trailing
newline to the piece output; and concretely the pattern with an unknown `Q`
selector renders message "hello" to "[] hello" followed by one newline. -/
theorem c8_unknown_directive :
    (∀ (cache : FormatCacheType) (r : LogRecord) (c : Char) (cs : List Char)
       (rest : List String), c ∉ knownSelectors →
       renderRest cache r (String.mk (c :: cs) :: rest) =
         (String.mk cs ++ (renderRest cache r rest).1, (renderRest cache r rest).2)) ∧
    (∀ (cacheIn : FormatCacheType) (format : String) (r : LogRecord), format.length ≠ 0 →
      ∃ body, (FormatLogRecord cacheIn format (some r)).1 = body ++ "\n") ∧
    (FormatLogRecord cacheInit "[%Q] %M" (some recHello)).1 = "[] hello\n" ∧
    countNewlines (FormatLogRecord cacheInit "[%Q] %M" (some recHello)).1 = 1 := by
  refine ⟨?_, ?_, by decide, by decide⟩
  · intro cache r c cs rest h
    simp only [renderRest]
    rw [applyDirective_unknown cache r c h]
    rfl
  · intro cacheIn format r h
    simp only [FormatLogRecord]
    rw [if_neg h]
    cases hsp : splitOnChar '%' (changeDttmFormat r.Created.fmtLayout format) with
    | nil =>
      simp only [hsp]
      exact ⟨"", rfl⟩
    | cons first rest =>
      simp only [hsp]
      refine ⟨first ++ (renderRest
        (if cacheIn.LastUpdateSeconds ≠ r.Created.unixSeconds then updateCache r.Created
         else cacheIn) r rest).1, ?_⟩
      rw [String.append_assoc]

/-- C8 witness: the unknown-selector description and the trailing-newline
form instantiated at concrete inputs. -/
theorem c8_unknown_directive_witness :
    (renderRest cacheInit recHello (String.mk ('Q' :: ['x']) :: []) =
      (String.mk ['x'] ++ (renderRest cacheInit recHello []).1,
       (renderRest cacheInit recHello []).2)) ∧
    (∃ body, (FormatLogRecord cacheInit "[%Q] %M" (some recHello)).1 = body ++ "\n") :=
  ⟨c8_unknown_directive.1 cacheInit recHello 'Q' ['x'] [] (by decide),
   c8_unknown_directive.2.1 cacheInit "[%Q] %M" recHello (by decide)⟩

/-- C9 counterexample: `FormatLogRecord` invoked on a record with empty
category and the pattern percent-M does not set the category to DEFAULT —
the patch only happens when a `C` directive is rendered, so the claim's
"for every pattern" is false. -/
theorem c9_counterexample :
    ((FormatLogRecord cacheInit "%M" (some recNoCat)).2.2).map LogRecord.Category
      = some "" ∧
    ("" : String) ≠ "DEFAULT" :=
  ⟨rfl, by decide⟩

/-- C9 amended: when `FormatLogRecord` is invoked on a record whose category
is empty and the pattern — after the custom datetime preprocessing — has a
directive segment (a piece of index greater than zero) whose selector is
`C`, the call sets the record's category to "DEFAULT" as a side effect. -/
theorem c9_amended (cacheIn : FormatCacheType) (format : String) (r : LogRecord)
    (hc : r.Category = "")
    (hp : ∃ p ∈ (splitOnChar '%' (changeDttmFormat r.Created.fmtLayout format)).tail,
          p.data.head? = some 'C') :
    ((FormatLogRecord cacheIn format (some r)).2.2).map LogRecord.Category
      = some "DEFAULT" := by
  have hne : format.length ≠ 0 := by
    intro h0
    have hdata : format.data = [] := List.length_eq_zero.mp h0
    rw [show format = "" from string_eq_empty_of_length_zero h0] at hp
    simp [changeDttmFormat, changeDttmAux, splitOnChar, splitOnCharAux] at hp
  simp only [FormatLogRecord]
  rw [if_neg hne]
  cases hsp : splitOnChar '%' (changeDttmFormat r.Created.fmtLayout format) with
  | nil =>
    rw [hsp] at hp
    simp at hp
  | cons first rest =>
    rw [hsp] at hp
    simp only [List.tail_cons] at hp
    have h := renderRest_category_default
      (if cacheIn.LastUpdateSeconds ≠ r.Created.unixSeconds then updateCache r.Created
       else cacheIn) rest r hc hp
    simpa using h

/-- C9 amended witness: the pattern percent-C on a record with empty
category patches the category to DEFAULT. -/
theorem c9_amended_witness :
    ((FormatLogRecord cacheInit "%C" (some recNoCat)).2.2).map LogRecord.Category
      = some "DEFAULT" :=
  c9_amended cacheInit "%C" recNoCat rfl (by decide)

/-! ## Theorems on the file sink -/

/-- C5: the consumer loop performs a rotation pass before a record exactly
when the trigger holds — maxlines positive and reached, or maxsize positive
and reached, or daily enabled and the day differs from the opening day — and
with maxlines 2, writing three records leaves a backup with exactly the
first two rendered lines and a live file with the third. -/
theorem c5_rotation_triggers :
    (∀ (w : FileLogWriter) (nowDay : Nat), rotateTrigger w nowDay = true ↔
       ((0 < w.maxlines ∧ w.maxlines ≤ w.maxlines_curlines) ∨
        (0 < w.maxsize ∧ w.maxsize ≤ w.maxsize_cursize) ∨
        (w.daily = true ∧ nowDay ≠ w.daily_opendate))) ∧
    (∀ (render : String → LogRecord → String) (w : FileLogWriter) (fs : FS)
       (r : LogRecord) (now : GoTime),
      rotateTrigger w now.day = false →
      handleEvent render w fs (.recEv r now) = writeRecord render w fs r now) ∧
    (∀ (render : String → LogRecord → String) (w : FileLogWriter) (fs : FS)
       (r : LogRecord) (now : GoTime),
      rotateTrigger w now.day = true →
      handleEvent render w fs (.recEv r now) =
        match intRotate render w fs now with
        | .ok p => writeRecord render p.1 p.2 r now
        | .error x => .error x) ∧
    ((fsGet (runLoop (renderWith cacheInit) t5 w5 fs5 evs5).fs "test.log.1").map
        FSFile.content = some "m1\nm2\n" ∧
     (fsGet (runLoop (renderWith cacheInit) t5 w5 fs5 evs5).fs "test.log").map
        FSFile.content = some "m3\n" ∧
     (fsGet (runLoop (renderWith cacheInit) t5 w5 fs5 evs5).fs "test.log.1").map
        (fun e => countNewlines e.content) = some 2 ∧
     (fsGet (runLoop (renderWith cacheInit) t5 w5 fs5 evs5).fs "test.log").map
        (fun e => countNewlines e.content) = some 1) := by
  refine ⟨?_, ?_, ?_, by decide, by decide, by decide, by decide⟩
  · intro w nowDay
    simp only [rotateTrigger, Bool.or_eq_true, Bool.and_eq_true, decide_eq_true_eq,
      gt_iff_lt, ge_iff_le, ne_eq]
    tauto
  · intro render w fs r now h
    simp only [handleEvent, h]
    rfl
  · intro render w fs r now h
    simp only [handleEvent, h]
    cases hI : intRotate render w fs now with
    | error x => rfl
    | ok p =>
      obtain ⟨w1, fs1⟩ := p
      rfl

/-- C5 witness: the no-trigger and trigger cases instantiated on the
concrete scenario (fresh counters do not trigger; counters at the limit
do). -/
theorem c5_rotation_triggers_witness :
    (rotateTrigger w5 t5.day = false ∧
      handleEvent (renderWith cacheInit) w5 fs5 (.recEv (mkMsgRec "m1") t5) =
        writeRecord (renderWith cacheInit) w5 fs5 (mkMsgRec "m1") t5) ∧
    (rotateTrigger { w5 with maxlines_curlines := 2 } t5.day = true ∧
      ((0 < w5.maxlines ∧ w5.maxlines ≤ (2 : Int)) ∨
       (0 < w5.maxsize ∧ w5.maxsize ≤ w5.maxsize_cursize) ∨
       (w5.daily = true ∧ t5.day ≠ w5.daily_opendate))) :=
  ⟨⟨by decide, c5_rotation_triggers.2.1 (renderWith cacheInit) w5 fs5 (mkMsgRec "m1") t5
      (by decide)⟩,
   ⟨by decide, (c5_rotation_triggers.1 { w5 with maxlines_curlines := 2 } t5.day).mp
      (by decide)⟩⟩

/-- Processing a prefix of the event stream without error, the loop then
continues on the remaining events from the reached state. -/
theorem runLoop_append (render : String → LogRecord → String) (endTime : GoTime)
    (done l : List SinkEvent) :
    ∀ (w : FileLogWriter) (fs : FS) (w1 : FileLogWriter) (fs1 : FS),
      runEvents render w fs done = .ok (w1, fs1) →
      runLoop render endTime w fs (done ++ l) = runLoop render endTime w1 fs1 l := by
  induction done with
  | nil =>
    intro w fs w1 fs1 h
    simp only [runEvents] at h
    cases h
    rfl
  | cons ev rest ih =>
    intro w fs w1 fs1 h
    simp only [runEvents] at h
    simp only [List.cons_append, runLoop]
    cases hE : handleEvent render w fs ev with
    | error x =>
      rw [hE] at h
      simp at h
    | ok p =>
      obtain ⟨w2, fs2⟩ := p
      rw [hE] at h
      simp only at h
      exact ih w2 fs2 w1 fs1 h

/-- C6: when a rotation attempted while handling an event fails (open or
rename error, whether from thresholds, a day boundary or an explicit rotate
signal), the consumer loop reports the error and terminates: the remaining
events stay unread and the filesystem keeps the state at the failure, only
the deferred cleanup (a no-op on the closed handle) running. -/
theorem c6_failstop (render : String → LogRecord → String) (endTime : GoTime)
    (w : FileLogWriter) (fs : FS) (done : List SinkEvent) (ev : SinkEvent)
    (rest : List SinkEvent) (w1 : FileLogWriter) (fs1 : FS) (e : String)
    (w2 : FileLogWriter) (fs2 : FS)
    (hrun : runEvents render w fs done = .ok (w1, fs1))
    (herr : handleEvent render w1 fs1 ev = .error (e, w2, fs2)) :
    runLoop render endTime w fs (done ++ ev :: rest) =
      ⟨{ w2 with fileOpen := false }, finalize render endTime w2 fs2, some e, rest⟩ := by
  rw [runLoop_append render endTime done (ev :: rest) w fs w1 fs1 hrun]
  simp only [runLoop, herr]

/-- C6 witness: a failing rotation (rename to the empty backup name) stops
the loop; the record queued behind the rotate signal is never written. -/
theorem c6_failstop_witness :
    runLoop (renderWith cacheInit) t6 w6 fs6 (.rot t6 :: [.recEv rec6 t6]) =
      ⟨{ w6 with fileOpen := false },
       finalize (renderWith cacheInit) t6 w6 fs6,
       some "Rotate: rename failed\n", [.recEv rec6 t6]⟩ :=
  c6_failstop (renderWith cacheInit) t6 w6 fs6 [] (.rot t6) [.recEv rec6 t6]
    w6 fs6 "Rotate: rename failed\n" w6 fs6 rfl rfl

/-- Sanitization removes every newline from a message. -/
theorem replaceNlAux_count (l : List Char) : (replaceNlAux l).count '\n' = 0 := by
  induction l with
  | nil => rfl
  | cons c rest ih =>
    by_cases h : c = '\n'
    · subst h
      simp [replaceNlAux, List.count_cons, ih]
    · simp [replaceNlAux, h, List.count_cons, ih]

/-- C7: with sanitize enabled, the consumer loop replaces every newline of
the record's message by backslash-n before rendering and writing, and the
line and byte counters are updated from the sanitized write; the sanitized
message contains no newline; concretely the message a-newline-b is stored
as a single line with a literal backslash-n. -/
theorem c7_sanitize :
    (∀ (render : String → LogRecord → String) (w : FileLogWriter) (fs : FS)
       (r : LogRecord) (now : GoTime),
      w.sanitize = true →
      writeRecord render w fs r now =
        (let line := render w.format { r with Message := sanitizeMessage r.Message };
         .ok ({ w with
                 maxlines_curlines := w.maxlines_curlines + 1
                 maxsize_cursize := w.maxsize_cursize + (line.utf8ByteSize : Int) },
              fsAppend fs w.filename line now))) ∧
    (∀ s, countNewlines (sanitizeMessage s) = 0) ∧
    sanitizeMessage "a\nb" = "a\\nb" ∧
    (fsGet (runLoop (renderWith cacheInit) t7 w7 fs7 [.recEv rec7 t7]).fs "s.log").map
      FSFile.content = some "a\\nb\n" ∧
    (fsGet (runLoop (renderWith cacheInit) t7 w7 fs7 [.recEv rec7 t7]).fs "s.log").map
      (fun e => countNewlines e.content) = some 1 := by
  refine ⟨?_, ?_, by decide, by decide, by decide⟩
  · intro render w fs r now h
    simp only [writeRecord, h]
    rfl
  · intro s
    exact replaceNlAux_count s.data

/-- C7 witness: the sanitized write description instantiated on the concrete
sanitizing sink and the newline-free property at a concrete message. -/
theorem c7_sanitize_witness :
    (writeRecord (renderWith cacheInit) w7 fs7 rec7 t7 =
      (let line := renderWith cacheInit w7.format
         { rec7 with Message := sanitizeMessage rec7.Message };
       .ok ({ w7 with
               maxlines_curlines := w7.maxlines_curlines + 1
               maxsize_cursize := w7.maxsize_cursize + (line.utf8ByteSize : Int) },
            fsAppend fs7 w7.filename line t7))) ∧
    countNewlines (sanitizeMessage "a\nb") = 0 :=
  ⟨c7_sanitize.1 (renderWith cacheInit) w7 fs7 rec7 t7 rfl,
   c7_sanitize.2.1 "a\nb"⟩

/-- C3 counterexample: on a genuine day rollover (file modified on day 10,
rotation on day 11) the backup name carries the modification date and the
literal sequence 0 — the name with sequence 1 is not created, so the claim
that the sequence used in the new name resets to 1 is false (the stored
sequence for subsequent same-day rotations does become 1). -/
theorem c3_counterexample :
    ((intRotate (renderWith cacheInit) w3c fs3c t3c).toOption.map
      (fun p => (fsExists p.2 "app.log.20251010.0", fsExists p.2 "app.log.20251010.1",
                 p.1.currbackup))) = some (true, false, 1) := by
  decide

/-- C4 counterexample: with rotate enabled, daily disabled, the live file
existing and maxbackup 1 (settable through `SetRotateMaxBackup`), the shift
loop never runs, the rename target stays the empty initial `fname`, and
rotation fails — the live file is not renamed to name.1, refuting the claim
for this input. -/
theorem c4_counterexample :
    intRotate (renderWith cacheInit) w4c fs4c t4c
      = .error ("Rotate: rename failed\n", w4c, fs4c) ∧
    fsExists fs4c "b.log.1" = false :=
  ⟨rfl, by decide⟩

/-! ## Decimal rendering and backup-name lemmas -/

/-- The character of a digit below ten has the expected code point. -/
theorem decDigit_toNat (d : Nat) (h : d < 10) : (decDigit d).toNat = 48 + d := by
  interval_cases d <;> decide

/-- Reading the rendered digits of `n` back in front of `acc` recovers `n`
in front of `acc`. -/
theorem decimalAux_parse : ∀ (fuel n : Nat) (acc : List Char), n < 10 ^ fuel →
    digitsValFrom 0 (decimalAux fuel n acc) = digitsValFrom n acc := by
  intro fuel
  induction fuel with
  | zero =>
    intro n acc h
    have hn : n = 0 := by simpa using h
    subst hn
    rfl
  | succ fuel ih =>
    intro n acc h
    by_cases hn : n < 10
    · simp only [decimalAux, if_pos hn, digitsValFrom, List.foldl_cons]
      rw [decDigit_toNat n hn]
      congr 1
      omega
    · simp only [decimalAux, if_neg hn]
      have hdiv : n / 10 < 10 ^ fuel := by
        rw [Nat.div_lt_iff_lt_mul (by norm_num)]
        calc n < 10 ^ (fuel + 1) := h
          _ = 10 ^ fuel * 10 := by ring
      rw [ih (n / 10) (decDigit (n % 10) :: acc) hdiv]
      simp only [digitsValFrom, List.foldl_cons]
      rw [decDigit_toNat (n % 10) (Nat.mod_lt n (by norm_num))]
      congr 1
      omega

/-- Strings with the same character data are equal. -/
theorem string_data_inj {s t : String} (h : s.data = t.data) : s = t := by
  cases s
  cases t
  exact congrArg String.mk h

/-- Decimal rendering of naturals is injective. -/
theorem decimalStr_inj {m n : Nat} (h : decimalStr m = decimalStr n) : m = n := by
  have hm : m < 10 ^ (m + 1) :=
    Nat.lt_trans (Nat.lt_succ_self m) (Nat.lt_pow_self (by norm_num) (m + 1))
  have hn : n < 10 ^ (n + 1) :=
    Nat.lt_trans (Nat.lt_succ_self n) (Nat.lt_pow_self (by norm_num) (n + 1))
  have hdata : decimalAux (m + 1) m [] = decimalAux (n + 1) n [] :=
    congrArg String.data h
  have h1 := decimalAux_parse (m + 1) m [] hm
  have h2 := decimalAux_parse (n + 1) n [] hn
  rw [hdata, h2] at h1
  have h3 : n = m := by simpa [digitsValFrom] using h1
  exact h3.symm

/-- Backup names with distinct numbers are distinct. -/
theorem mkB_inj {fn : String} {a b : Nat} (h : mkB fn a = mkB fn b) : a = b := by
  have hd : (fn ++ "." ++ decimalStr a).data = (fn ++ "." ++ decimalStr b).data :=
    congrArg String.data h
  simp only [String.data_append, List.append_assoc] at hd
  have h2 : (decimalStr a).data = (decimalStr b).data :=
    List.append_cancel_left (List.append_cancel_left hd)
  exact decimalStr_inj (string_data_inj h2)

/-- A backup name is strictly longer than its base name. -/
theorem mkB_length (fn : String) (n : Nat) : fn.length < (mkB fn n).length := by
  have hdot : (".").length = 1 := rfl
  simp only [mkB, String.length_append, hdot]
  omega

/-- A backup name never equals the base name. -/
theorem mkB_ne_base (fn : String) (n : Nat) : mkB fn n ≠ fn := by
  intro h
  have := congrArg String.length h
  have h2 := mkB_length fn n
  omega

/-- A backup name is never empty. -/
theorem mkB_ne_empty (fn : String) (n : Nat) : mkB fn n ≠ "" := by
  intro h
  have hlen := congrArg String.length h
  rw [show ("" : String).length = 0 from rfl] at hlen
  have h2 := mkB_length fn n
  omega

/-! ## Filesystem lookup lemmas -/

theorem fsGet_set_self (fs : FS) (n : String) (f : FSFile) :
    fsGet (fsSet fs n f) n = some f := by
  simp [fsGet, fsSet, List.find?]

theorem fsGet_set_ne (fs : FS) (n : String) (f : FSFile) (m : String) (h : m ≠ n) :
    fsGet (fsSet fs n f) m = fsGet fs m := by
  have hb : (n == m) = false := beq_eq_false_iff_ne.mpr (Ne.symm h)
  simp [fsGet, fsSet, List.find?, hb]

theorem find?_filter_ne (m n : String) (h : m ≠ n) :
    ∀ (l : List (String × FSFile)),
      List.find? (fun p => p.1 == m) (l.filter (fun p => !(p.1 == n))) =
        List.find? (fun p => p.1 == m) l := by
  intro l
  induction l with
  | nil => rfl
  | cons a l ih =>
    by_cases ha : a.1 = n
    · have hdrop : (a.1 == n) = true := by simp [ha]
      have h2 : (a.1 == m) = false := by
        rw [ha]
        exact beq_eq_false_iff_ne.mpr (Ne.symm h)
      simp [List.filter_cons, hdrop, List.find?, h2, ih]
    · have hkeep : (a.1 == n) = false := beq_eq_false_iff_ne.mpr ha
      by_cases ham : a.1 = m
      · have htrue : (a.1 == m) = true := by simp [ham]
        simp [List.filter_cons, hkeep, List.find?, htrue]
      · have h2 : (a.1 == m) = false := beq_eq_false_iff_ne.mpr ham
        simp [List.filter_cons, hkeep, List.find?, h2, ih]

theorem find?_filter_self (n : String) : ∀ (l : List (String × FSFile)),
    List.find? (fun p => p.1 == n) (l.filter (fun p => !(p.1 == n))) = none := by
  intro l
  induction l with
  | nil => rfl
  | cons a l ih =>
    by_cases ha : a.1 = n
    · have hdrop : (a.1 == n) = true := by simp [ha]
      simp [List.filter_cons, hdrop, ih]
    · have hkeep : (a.1 == n) = false := beq_eq_false_iff_ne.mpr ha
      simp [List.filter_cons, hkeep, List.find?, ih]

theorem fsGet_remove_ne (fs : FS) (n m : String) (h : m ≠ n) :
    fsGet (fsRemove fs n) m = fsGet fs m := by
  simp [fsGet, fsRemove, find?_filter_ne m n h]

theorem fsGet_remove_self (fs : FS) (n : String) : fsGet (fsRemove fs n) n = none := by
  simp [fsGet, fsRemove, find?_filter_self n]

theorem fsAppend_empty (fs : FS) (n : String) (now : GoTime) :
    fsAppend fs n "" now = fs := rfl

theorem fsGet_append_ne (fs : FS) (n s : String) (now : GoTime) (m : String) (h : m ≠ n) :
    fsGet (fsAppend fs n s now) m = fsGet fs m := by
  unfold fsAppend
  split
  · rfl
  · cases hg : fsGet fs n with
    | none => rfl
    | some f => exact fsGet_set_ne fs n _ m h

theorem fsSet_badOpen (fs : FS) (n : String) (f : FSFile) :
    (fsSet fs n f).badOpen = fs.badOpen := rfl

theorem fsRemove_badOpen (fs : FS) (n : String) :
    (fsRemove fs n).badOpen = fs.badOpen := rfl

theorem fsAppend_badOpen (fs : FS) (n s : String) (now : GoTime) :
    (fsAppend fs n s now).badOpen = fs.badOpen := by
  unfold fsAppend
  split
  · rfl
  · cases fsGet fs n <;> rfl

theorem fsRename_ok {fs : FS} {src dst : String} {f : FSFile}
    (hdst : dst ≠ "") (hsrc : fsGet fs src = some f) :
    fsRename fs src dst = .ok (fsSet (fsRemove fs src) dst f) := by
  unfold fsRename
  rw [if_neg hdst, hsrc]

theorem fsRename_badOpen {fs : FS} {a b : String} {fs2 : FS}
    (h : fsRename fs a b = .ok fs2) : fs2.badOpen = fs.badOpen := by
  unfold fsRename at h
  split at h
  · exact Except.noConfusion h
  · cases hg : fsGet fs a with
    | none =>
      rw [hg] at h
      exact Except.noConfusion h
    | some f =>
      rw [hg] at h
      injection h with h2
      rw [← h2]
      rfl

theorem fsOpenAppend_create (fs : FS) (n : String) (now : GoTime)
    (hbad : n ∉ fs.badOpen) (hex : fsGet fs n = none) :
    fsOpenAppend fs n now =
      .ok (fsSet fs n { content := "", modDay := now.day, modDate := now.yyyymmdd }) := by
  unfold fsOpenAppend
  rw [if_neg hbad, if_neg (by simp [fsExists, hex])]

theorem fsRename_ok_inv {fs : FS} {src dst : String} {fs2 : FS}
    (h : fsRename fs src dst = .ok fs2) :
    ∃ f, fsGet fs src = some f ∧ fs2 = fsSet (fsRemove fs src) dst f := by
  unfold fsRename at h
  split at h
  · exact Except.noConfusion h
  · cases hg : fsGet fs src with
    | none =>
      rw [hg] at h
      exact Except.noConfusion h
    | some f =>
      rw [hg] at h
      injection h with h2
      exact ⟨f, rfl, h2.symm⟩

/-! ## Shift-loop lemmas -/

theorem shiftBackups_badOpen (fn : String) : ∀ (k : Nat) (fs : FS) (acc : String),
    ((shiftBackups fn k fs acc).1).badOpen = fs.badOpen := by
  intro k
  induction k with
  | zero => intro fs acc; rfl
  | succ n ih =>
    intro fs acc
    simp only [shiftBackups]
    rw [ih]
    split
    · cases hR : fsRename fs (mkB fn (n + 1)) (mkB fn (n + 2)) with
      | error e => rfl
      | ok fs2 => exact fsRename_badOpen hR
    · rfl

/-- Names outside the shift range are untouched by the shift loop. -/
theorem shiftBackups_get_other (fn : String) : ∀ (k : Nat) (fs : FS) (acc name : String),
    (∀ j : Nat, 1 ≤ j → j ≤ k + 1 → name ≠ mkB fn j) →
    fsGet (shiftBackups fn k fs acc).1 name = fsGet fs name := by
  intro k
  induction k with
  | zero => intro fs acc name _; rfl
  | succ n ih =>
    intro fs acc name h
    simp only [shiftBackups]
    rw [ih _ _ name (fun j h1 h2 => h j h1 (by omega))]
    split
    · cases hR : fsRename fs (mkB fn (n + 1)) (mkB fn (n + 2)) with
      | error e => rfl
      | ok fs2 =>
        obtain ⟨f, _, rfl⟩ := fsRename_ok_inv hR
        rw [fsGet_set_ne _ _ _ _ (h (n + 2) (by omega) (by omega))]
        exact fsGet_remove_ne _ _ _ (h (n + 1) (by omega) (by omega))
    · rfl

/-- An existing backup `name.N` with `N` in the shifted range ends up at
`name.N+1` after the loop. -/
theorem shiftBackups_shifts (fn : String) : ∀ (k : Nat) (fs : FS) (acc : String)
    (N : Nat) (eN : FSFile), 1 ≤ N → N ≤ k → fsGet fs (mkB fn N) = some eN →
    fsGet (shiftBackups fn k fs acc).1 (mkB fn (N + 1)) = some eN := by
  intro k
  induction k with
  | zero =>
    intro fs acc N eN h1 h2 _
    omega
  | succ n ih =>
    intro fs acc N eN h1 h2 hget
    simp only [shiftBackups]
    by_cases hN : N = n + 1
    · subst hN
      have hex : fsExists fs (mkB fn (n + 1)) = true := by simp [fsExists, hget]
      split
      · split
        next fs2 heq =>
          obtain ⟨f, hf, rfl⟩ := fsRename_ok_inv heq
          have hfe : f = eN := by
            rw [hget] at hf
            exact (Option.some.injEq _ _ ▸ hf).symm
          subst hfe
          rw [shiftBackups_get_other fn _ _ _ _
            (fun j hj1 hj2 h => by
              have := mkB_inj h.symm
              omega)]
          exact fsGet_set_self _ _ _
        next e heq =>
          have hR : fsRename fs (mkB fn (n + 1)) (mkB fn (n + 2)) =
              .ok (fsSet (fsRemove fs (mkB fn (n + 1))) (mkB fn (n + 2)) eN) :=
            fsRename_ok (mkB_ne_empty fn (n + 2)) hget
          rw [hR] at heq
          exact Except.noConfusion heq
      · next hex2 => exact absurd hex hex2
    · have hN' : N ≤ n := by omega
      split
      · split
        next fs2 heq =>
          obtain ⟨f, hf, rfl⟩ := fsRename_ok_inv heq
          refine ih _ _ N eN h1 hN' ?_
          rw [fsGet_set_ne _ _ _ _ (fun h => by have := mkB_inj h; omega)]
          rw [fsGet_remove_ne _ _ _ (fun h => by have := mkB_inj h; omega)]
          exact hget
        next e heq => exact ih _ _ N eN h1 hN' hget
      · exact ih _ _ N eN h1 hN' hget

/-- The loop variable `fname` after at least one iteration is `name.1`. -/
theorem shiftBackups_fname (fn : String) : ∀ (k : Nat) (fs : FS) (acc : String),
    1 ≤ k → (shiftBackups fn k fs acc).2 = mkB fn 1 := by
  intro k
  induction k with
  | zero =>
    intro fs acc h
    omega
  | succ n ih =>
    intro fs acc h
    simp only [shiftBackups]
    by_cases hn : 1 ≤ n
    · exact ih _ _ hn
    · have hn0 : n = 0 := by omega
      subst hn0
      rfl

/-- C4 amended: on a non-daily rotation with backups enabled, the live file
existing and maxbackup at least 2, every existing backup name.N for N from
maxbackup-1 down to 1 is renamed to name.N+1 (clobbering, and thereby
evicting, the backup beyond maxbackup) and the live file is then renamed to
name.1.  With maxbackup equal to 1 the rename target degenerates to the
empty name and the rotation fails instead. -/
theorem c4_amended (render : String → LogRecord → String) (w : FileLogWriter) (fs : FS)
    (now : GoTime) (e : FSFile)
    (hrot : w.rotate = true) (hdaily : w.daily = false)
    (hT : render w.trailer (emptyRec now) = "")
    (hstat : fsGet fs w.filename = some e)
    (hopen : w.filename ∉ fs.badOpen)
    (hmb : 2 ≤ w.maxbackup) :
    ∃ w' fs', intRotate render w fs now = .ok (w', fs') ∧
      (fsGet fs' (mkB w.filename 1)).map FSFile.content = some e.content ∧
      (∀ (N : Nat) (eN : FSFile), 1 ≤ N → N ≤ (w.maxbackup - 1).toNat →
        fsGet fs (mkB w.filename N) = some eN →
        fsGet fs' (mkB w.filename (N + 1)) = some eN) := by
  have hk1 : 1 ≤ (w.maxbackup - 1).toNat := by omega
  have hne_base : ∀ j : Nat, w.filename ≠ mkB w.filename j :=
    fun j => (mkB_ne_base w.filename j).symm
  have hlive : fsGet (shiftBackups w.filename ((w.maxbackup - 1).toNat) fs "").1 w.filename
      = some e := by
    rw [shiftBackups_get_other w.filename _ fs "" w.filename (fun j _ _ => hne_base j)]
    exact hstat
  have hfname := shiftBackups_fname w.filename ((w.maxbackup - 1).toNat) fs "" hk1
  have hR : fsRename (shiftBackups w.filename ((w.maxbackup - 1).toNat) fs "").1
      w.filename (shiftBackups w.filename ((w.maxbackup - 1).toNat) fs "").2
      = .ok (fsSet (fsRemove (shiftBackups w.filename ((w.maxbackup - 1).toNat) fs "").1
          w.filename) (mkB w.filename 1) e) := by
    rw [hfname]
    exact fsRename_ok (mkB_ne_empty _ 1) hlive
  have hbad1 : w.filename ∉ (fsSet (fsRemove (shiftBackups w.filename
      ((w.maxbackup - 1).toNat) fs "").1 w.filename) (mkB w.filename 1) e).badOpen := by
    rw [fsSet_badOpen, fsRemove_badOpen, shiftBackups_badOpen]
    exact hopen
  have hget1 : fsGet (fsSet (fsRemove (shiftBackups w.filename
      ((w.maxbackup - 1).toNat) fs "").1 w.filename) (mkB w.filename 1) e)
      w.filename = none := by
    rw [fsGet_set_ne _ _ _ _ (hne_base 1)]
    exact fsGet_remove_self _ _
  have hOpen := fsOpenAppend_create _ w.filename now hbad1 hget1
  refine ⟨{ w with
            fileOpen := true
            daily_opendate := now.day
            maxlines_curlines := 0
            maxsize_cursize := 0 },
          fsAppend (fsSet (fsSet (fsRemove (shiftBackups w.filename
            ((w.maxbackup - 1).toNat) fs "").1 w.filename) (mkB w.filename 1) e)
            w.filename { content := "", modDay := now.day, modDate := now.yyyymmdd })
            w.filename (render w.header (emptyRec now)) now, ?_, ?_, ?_⟩
  · simp only [intRotate, hT, fsAppend_empty, ite_self, hrot, hstat, hdaily,
      Bool.false_eq_true, if_false, if_true, hR, hOpen]
  · rw [fsGet_append_ne _ _ _ _ _ (mkB_ne_base w.filename 1)]
    rw [fsGet_set_ne _ _ _ _ (mkB_ne_base w.filename 1)]
    rw [fsGet_set_self]
    rfl
  · intro N eN h1 h2 hget
    have hneq : mkB w.filename (N + 1) ≠ w.filename := mkB_ne_base _ _
    rw [fsGet_append_ne _ _ _ _ _ hneq]
    rw [fsGet_set_ne _ _ _ _ hneq]
    rw [fsGet_set_ne _ _ _ _ (fun hh => by have := mkB_inj hh; omega)]
    rw [fsGet_remove_ne _ _ _ hneq]
    exact shiftBackups_shifts w.filename _ fs "" N eN h1 h2 hget

theorem dotname_ne_base (fn a b : String) : fn ++ "." ++ a ++ b ≠ fn := by
  intro h
  have hlen := congrArg String.length h
  have hdot : (".").length = 1 := rfl
  simp only [String.length_append, hdot] at hlen
  omega

theorem dotname_ne_empty (fn a b : String) : fn ++ "." ++ a ++ b ≠ "" := by
  intro h
  have hlen := congrArg String.length h
  have hdot : (".").length = 1 := rfl
  have hemp : ("" : String).length = 0 := rfl
  simp only [String.length_append, hdot, hemp] at hlen
  omega

theorem dot2name_ne_base (fn a b : String) : fn ++ "." ++ a ++ "." ++ b ≠ fn := by
  intro h
  have hlen := congrArg String.length h
  have hdot : (".").length = 1 := rfl
  simp only [String.length_append, hdot] at hlen
  omega

theorem dot2name_ne_empty (fn a b : String) : fn ++ "." ++ a ++ "." ++ b ≠ "" := by
  intro h
  have hlen := congrArg String.length h
  have hdot : (".").length = 1 := rfl
  have hemp : ("" : String).length = 0 := rfl
  simp only [String.length_append, hdot, hemp] at hlen
  omega

/-- C3 amended: when a daily-naming rotation runs on an existing live file,
the file is renamed to name.YYYYMMDD.seq built from the file's modification
date, where on a genuine day rollover (today differs from the file's
modification day) the literal sequence in the new name is 0 while the stored
sequence resets to 1 for subsequent same-day rotations, and on a same-day
rotation the current sequence is used in the name and then incremented,
wrapping back to 1 once it reaches maxbackup. -/
theorem c3_amended (render : String → LogRecord → String) (w : FileLogWriter) (fs : FS)
    (now : GoTime) (e : FSFile)
    (hrot : w.rotate = true) (hdaily : w.daily = true)
    (hT : render w.trailer (emptyRec now) = "")
    (hstat : fsGet fs w.filename = some e)
    (hopen : w.filename ∉ fs.badOpen) :
    (now.day ≠ e.modDay →
      ∃ w' fs', intRotate render w fs now = .ok (w', fs') ∧
        (fsGet fs' (w.filename ++ "." ++ e.modDate ++ ".0")).map FSFile.content
          = some e.content ∧
        w'.currbackup = 1) ∧
    (now.day = e.modDay →
      ∃ w' fs', intRotate render w fs now = .ok (w', fs') ∧
        (fsGet fs' (w.filename ++ "." ++ e.modDate ++ "." ++ intStr w.currbackup)).map
          FSFile.content = some e.content ∧
        w'.currbackup = if w.currbackup + 1 ≥ w.maxbackup then 1
                        else w.currbackup + 1) := by
  constructor
  · intro h
    have hfne : w.filename ++ "." ++ e.modDate ++ ".0" ≠ w.filename :=
      dotname_ne_base w.filename e.modDate ".0"
    have hR : fsRename fs w.filename (w.filename ++ "." ++ e.modDate ++ ".0")
        = .ok (fsSet (fsRemove fs w.filename) (w.filename ++ "." ++ e.modDate ++ ".0") e) :=
      fsRename_ok (dotname_ne_empty w.filename e.modDate ".0") hstat
    have hbad1 : w.filename ∉ (fsSet (fsRemove fs w.filename)
        (w.filename ++ "." ++ e.modDate ++ ".0") e).badOpen := by
      rw [fsSet_badOpen, fsRemove_badOpen]
      exact hopen
    have hget1 : fsGet (fsSet (fsRemove fs w.filename)
        (w.filename ++ "." ++ e.modDate ++ ".0") e) w.filename = none := by
      rw [fsGet_set_ne _ _ _ _ (Ne.symm hfne)]
      exact fsGet_remove_self _ _
    have hOpen := fsOpenAppend_create _ w.filename now hbad1 hget1
    refine ⟨{ w with
              fileOpen := true
              daily_opendate := now.day
              maxlines_curlines := 0
              maxsize_cursize := 0
              currbackup := 1 },
            fsAppend (fsSet (fsSet (fsRemove fs w.filename)
              (w.filename ++ "." ++ e.modDate ++ ".0") e)
              w.filename { content := "", modDay := now.day, modDate := now.yyyymmdd })
              w.filename (render w.header (emptyRec now)) now, ?_, ?_, rfl⟩
    · simp only [intRotate, hT, fsAppend_empty, ite_self, hrot, hstat, hdaily, h, ne_eq,
        not_false_iff, if_true, hR, hOpen]
    · rw [fsGet_append_ne _ _ _ _ _ hfne]
      rw [fsGet_set_ne _ _ _ _ hfne]
      rw [fsGet_set_self]
      rfl
  · intro h
    have hfne : w.filename ++ "." ++ e.modDate ++ "." ++ intStr w.currbackup ≠ w.filename :=
      dot2name_ne_base w.filename e.modDate (intStr w.currbackup)
    have hR : fsRename fs w.filename
        (w.filename ++ "." ++ e.modDate ++ "." ++ intStr w.currbackup)
        = .ok (fsSet (fsRemove fs w.filename)
            (w.filename ++ "." ++ e.modDate ++ "." ++ intStr w.currbackup) e) :=
      fsRename_ok (dot2name_ne_empty w.filename e.modDate (intStr w.currbackup)) hstat
    have hbad1 : w.filename ∉ (fsSet (fsRemove fs w.filename)
        (w.filename ++ "." ++ e.modDate ++ "." ++ intStr w.currbackup) e).badOpen := by
      rw [fsSet_badOpen, fsRemove_badOpen]
      exact hopen
    have hget1 : fsGet (fsSet (fsRemove fs w.filename)
        (w.filename ++ "." ++ e.modDate ++ "." ++ intStr w.currbackup) e)
        w.filename = none := by
      rw [fsGet_set_ne _ _ _ _ (Ne.symm hfne)]
      exact fsGet_remove_self _ _
    have hOpen := fsOpenAppend_create _ w.filename now hbad1 hget1
    refine ⟨{ w with
              fileOpen := true
              daily_opendate := now.day
              maxlines_curlines := 0
              maxsize_cursize := 0
              currbackup := if w.currbackup + 1 ≥ w.maxbackup then 1
                            else w.currbackup + 1 },
            fsAppend (fsSet (fsSet (fsRemove fs w.filename)
              (w.filename ++ "." ++ e.modDate ++ "." ++ intStr w.currbackup) e)
              w.filename { content := "", modDay := now.day, modDate := now.yyyymmdd })
              w.filename (render w.header (emptyRec now)) now, ?_, ?_, rfl⟩
    · simp only [intRotate, hT, fsAppend_empty, ite_self, hrot, hstat, hdaily, h, ne_eq,
        not_true, if_false, if_true, hR, hOpen]
    · rw [fsGet_append_ne _ _ _ _ _ hfne]
      rw [fsGet_set_ne _ _ _ _ hfne]
      rw [fsGet_set_self]
      rfl

/-- C3 amended witness: the rollover case instantiated on the concrete
daily sink (modification day 10, rotation day 11). -/
theorem c3_amended_witness :
    ∃ w' fs', intRotate (renderWith cacheInit) w3c fs3c t3c = .ok (w', fs') ∧
      (fsGet fs' (w3c.filename ++ "." ++ "20251010" ++ ".0")).map FSFile.content
        = some "x\n" ∧
      w'.currbackup = 1 :=
  (c3_amended (renderWith cacheInit) w3c fs3c t3c
    { content := "x\n", modDay := 10, modDate := "20251010" }
    rfl rfl rfl rfl (by decide)).1 (by decide)

/-- C4 amended witness: the shift chain instantiated on a concrete sink with
maxbackup 3, a live file and one existing backup. -/
theorem c4_amended_witness :
    ∃ w' fs', intRotate (renderWith cacheInit) w4w fs4w t4w = .ok (w', fs') ∧
      (fsGet fs' (mkB w4w.filename 1)).map FSFile.content = some "live\n" ∧
      (∀ (N : Nat) (eN : FSFile), 1 ≤ N → N ≤ (w4w.maxbackup - 1).toNat →
        fsGet fs4w (mkB w4w.filename N) = some eN →
        fsGet fs' (mkB w4w.filename (N + 1)) = some eN) :=
  c4_amended (renderWith cacheInit) w4w fs4w t4w
    { content := "live\n", modDay := 8, modDate := "20251008" }
    rfl rfl rfl rfl (by decide) (by decide)

end Log4go
